import Mathlib

/-!
# Login gateway: admission queue and stream forwarding

A shallow embedding of `src/login-gateway/main.go`.

* The Redis list `login_queue` is a `List String`, leftmost element first
  (the order `LRANGE` prints): `LPUSH` inserts on the left, `RPOP` and
  `RPUSH` work on the right.
* Every handler goroutine (`handleClient`) is a `Worker` with a control
  point `Pc`.  One step of a worker is one blocking operation of the Go code
  (a store command, the dial, the end of a copy) together with the local
  code that follows it up to the next blocking operation.
* The outcome of a blocking operation is chosen by the environment and is an
  input of the step (`Input`); a schedule is a list of `Action`s.
* Everything the handlers do to the outside world is appended to a trace.
-/

namespace LoginGateway

/-! ## Package-level variables -/

/-- The Go variable `maxQueue`. -/
def maxQueue : Int := 5000

/-- The Go variable `authServer`. -/
def authServer : String := "127.0.0.1:3725"

/-! ## The queue store (Redis list commands) -/

/-- Contents of the list stored under `redisQueue`, leftmost element first. -/
abbrev Queue := List String

/-- The command `LLEN`. -/
def LLen (q : Queue) : Int := q.length

/-- The command `LPUSH`: insert at the left end. -/
def LPush (q : Queue) (v : String) : Queue := v :: q

/-- The command `RPUSH`: insert at the right end. -/
def RPush (q : Queue) (v : String) : Queue := q ++ [v]

/-- The command `RPOP`: remove and return the rightmost element, if any. -/
def RPop (q : Queue) : Option String × Queue :=
  match q.getLast? with
  | none => (none, q)
  | some h => (some h, q.dropLast)

/-- The error value that `Result()` returns next to the reply. -/
inductive RedisErr
  | none
  | nil
  | other
  deriving DecidableEq, Repr

/-- The call `rdb.RPop(ctx, redisQueue).Result()` as the Go caller sees it:
the value, the error, and the list afterwards.  With `ok = false` the command
fails: the value is the zero value of `string`, the error is neither `nil`
nor `redis.Nil`, and the list is not changed. -/
def rpopResult (ok : Bool) (q : Queue) : String × RedisErr × Queue :=
  if ok then
    match RPop q with
    | (none, q1) => ("", RedisErr.nil, q1)
    | (some h, q1) => (h, RedisErr.none, q1)
  else ("", RedisErr.other, q)

/-- The call `rdb.LLen(ctx, redisQueue).Result()` with the error dropped
(`qlen, _ :=`): a failed command leaves the zero value. -/
def llenResult (ok : Bool) (q : Queue) : Int :=
  if ok then LLen q else 0

/-! ## Tickets -/

/-- The ticket `fmt.Sprintf("%s-%d", conn.RemoteAddr().String(), time.Now().UnixNano())`. -/
def ticket (remoteAddr : String) (now : Int) : String :=
  remoteAddr ++ "-" ++ toString now

/-! ## Workers, events, system state -/

/-- The two directions of the relay in `forwardTraffic`. -/
inductive Dir
  | clientToBackend
  | backendToClient
  deriving DecidableEq, Repr

/-- Control point of one `handleClient` goroutine. -/
inductive Pc
  /-- Spawned by `main`, nothing executed yet; `LLen` is next. -/
  | start
  /-- The capacity check passed; `LPush` is next. -/
  | enqueue
  /-- Top of the `for` loop; `RPop` is next. -/
  | poll
  /-- `RPop` gave a value different from the own ticket; `RPush` of it is next. -/
  | holding (head : String)
  /-- `head == id` held and `forwardTraffic(conn)` was called; `net.Dial` is next. -/
  | forward
  /-- The backend is connected and `io.Copy(client, backend)` is running;
  `c2bDone` tells whether the goroutine `io.Copy(backend, client)` has ended. -/
  | relay (c2bDone : Bool)
  /-- The function `handleClient` has returned. -/
  | done
  deriving DecidableEq, Repr

/-- Effects of a worker that are visible outside of it. -/
inductive Event
  /-- `LLEN` was sent; `qlen` is the value the handler continues with. -/
  | llen (ok : Bool) (qlen : Int)
  | lpush (v : String) (ok : Bool)
  | rpop (head : String) (err : RedisErr)
  | rpush (v : String) (ok : Bool)
  | sleep (ms : Nat)
  | log (msg : String)
  /-- `conn.Write` on the client connection. -/
  | write (data : String)
  /-- The call `forwardTraffic(conn)` of the handler whose ticket is `id`. -/
  | forwardCall (id : String)
  | dial (addr : String) (ok : Bool)
  /-- The goroutine `io.Copy(backend, client)` ended. -/
  | copyEnded
  /-- The deferred `backend.Close()`. -/
  | closeBackend
  /-- The deferred `conn.Close()` of `handleClient`. -/
  | close
  deriving DecidableEq, Repr

/-- Outcome of the blocking operation a worker is waiting for. -/
inductive Input
  /-- The pending store command completes; `ok = false` means it failed. -/
  | store (ok : Bool)
  /-- The call `net.Dial` completes, `none` for success, else the error text. -/
  | dial (err : Option String)
  /-- One of the two `io.Copy` calls returns. -/
  | copyEnd (dir : Dir)
  deriving DecidableEq, Repr

/-- One accepted connection and the goroutine serving it. -/
structure Worker where
  /-- Value of `conn.RemoteAddr().String()`. -/
  remoteAddr : String
  /-- Value of `time.Now().UnixNano()` when the handler starts. -/
  now : Int
  pc : Pc
  /-- The client has closed its end of the connection. -/
  clientGone : Bool
  deriving DecidableEq, Repr

/-- The local variable `id` of `handleClient`. -/
def Worker.id (w : Worker) : String := ticket w.remoteAddr w.now

/-- State of the gateway process together with the store. -/
structure Gateway where
  queue : Queue
  /-- The counter `login_attempts_total`. -/
  loginAttempts : Nat
  /-- The gauge `active_queue_size`. -/
  queueSize : Int
  workers : List Worker
  /-- Events so far, oldest first, each with the index of its worker. -/
  trace : List (Nat × Event)
  deriving DecidableEq, Repr

/-- Worker `i` (whose record is `w`) moves to `pc` and emits `evs`. -/
def Gateway.put (g : Gateway) (i : Nat) (w : Worker) (pc : Pc) (evs : List Event) : Gateway :=
  { g with
    workers := g.workers.set i { w with pc := pc }
    trace := g.trace ++ evs.map (fun e => (i, e)) }

/-! ## The Go functions -/

/-- The function `forwardTraffic(client)`, entered at `Pc.forward`.  The
result is the new state and whether the function has returned. -/
def forwardTraffic (g : Gateway) (i : Nat) (w : Worker) (inp : Input) : Gateway × Bool :=
  match w.pc, inp with
  | Pc.forward, Input.dial (some err) =>
      (g.put i w Pc.forward
        [Event.dial authServer false,
         Event.log ("Authserver unreachable: " ++ err),
         Event.write "Authserver is down. Try later.\n"], true)
  | Pc.forward, Input.dial none =>
      (g.put i w (Pc.relay false) [Event.dial authServer true], false)
  | Pc.relay false, Input.copyEnd Dir.clientToBackend =>
      (g.put i w (Pc.relay true) [Event.copyEnded], false)
  | Pc.relay c2b, Input.copyEnd Dir.backendToClient =>
      (g.put i w (Pc.relay c2b) [Event.closeBackend], true)
  | _, _ => (g, false)

/-- The function `handleClient(conn)` of worker `i`, one step at a time. -/
def handleClient (g : Gateway) (i : Nat) (w : Worker) (inp : Input) : Gateway :=
  let id := w.id
  match w.pc, inp with
  | Pc.start, Input.store ok =>
      let qlen := llenResult ok g.queue
      let g1 := { g with loginAttempts := g.loginAttempts + 1, queueSize := qlen }
      if qlen ≥ maxQueue then
        g1.put i w Pc.done
          [Event.llen ok qlen, Event.write "Server is full. Try again later.\n", Event.close]
      else
        g1.put i w Pc.enqueue [Event.llen ok qlen]
  | Pc.enqueue, Input.store ok =>
      let g1 := if ok then { g with queue := LPush g.queue id } else g
      g1.put i w Pc.poll [Event.lpush id ok, Event.log ("Enqueued " ++ id)]
  | Pc.poll, Input.store ok =>
      match rpopResult ok g.queue with
      | (head, err, q1) =>
        let g1 := { g with queue := q1 }
        if err = RedisErr.nil then
          g1.put i w Pc.poll [Event.rpop head err, Event.sleep 100]
        else if head = id then
          g1.put i w Pc.forward [Event.rpop head err, Event.forwardCall id]
        else
          g1.put i w (Pc.holding head) [Event.rpop head err]
  | Pc.holding head, Input.store ok =>
      let g1 := if ok then { g with queue := RPush g.queue head } else g
      g1.put i w Pc.poll [Event.rpush head ok, Event.sleep 500]
  | Pc.forward, inp1 =>
      match forwardTraffic g i w inp1 with
      | (g1, true) => { g1 with
          workers := g1.workers.set i { w with pc := Pc.done }
          trace := g1.trace ++ [(i, Event.close)] }
      | (g1, false) => g1
  | Pc.relay _, inp1 =>
      match forwardTraffic g i w inp1 with
      | (g1, true) => { g1 with
          workers := g1.workers.set i { w with pc := Pc.done }
          trace := g1.trace ++ [(i, Event.close)] }
      | (g1, false) => g1
  | _, _ => g

/-! ## Schedules -/

/-- What can happen next in the system. -/
inductive Action
  /-- Worker `i` gets the outcome of the operation it is blocked on. -/
  | run (i : Nat) (inp : Input)
  /-- The client of worker `i` closes its end of the connection. -/
  | clientClose (i : Nat)
  deriving DecidableEq, Repr

/-- One transition of the system. -/
def step (g : Gateway) (a : Action) : Gateway :=
  match a with
  | Action.run i inp =>
      match g.workers[i]? with
      | some w => handleClient g i w inp
      | none => g
  | Action.clientClose i =>
      match g.workers[i]? with
      | some w => { g with workers := g.workers.set i { w with clientGone := true } }
      | none => g

/-- Run a schedule. -/
def exec (g : Gateway) (sched : List Action) : Gateway :=
  sched.foldl step g

/-- A connection accepted by `main`, its handler not yet started. -/
def Worker.accepted (remoteAddr : String) (now : Int) : Worker :=
  { remoteAddr := remoteAddr, now := now, pc := Pc.start, clientGone := false }

/-- The gateway after `initRedis`, with an empty store and the given
connections accepted. -/
def Gateway.init (conns : List (String × Int)) : Gateway :=
  { queue := [], loginAttempts := 0, queueSize := 0,
    workers := conns.map (fun c => Worker.accepted c.1 c.2), trace := [] }

/-! ## Observations on states and schedules -/

/-- Value of a digit string read in base ten, continuing from `acc`. -/
def decimalValue (ds : List Char) (acc : Nat) : Nat :=
  ds.foldl (fun a c => 10 * a + (c.toNat - 48)) acc

/-- The value a worker holds between its `RPop` and its `RPush`. -/
def heldOf (pc : Pc) : Option String :=
  match pc with
  | Pc.holding h => some h
  | _ => none

/-- All values that have been popped and not yet pushed back, one entry for
every worker that is between its `RPop` and its `RPush`. -/
def held (ws : List Worker) : List String :=
  ws.filterMap (fun w => heldOf w.pc)

/-- The ticket an event enqueues, for a successful `LPush`. -/
def enqueuedBy (e : Nat × Event) : Option String :=
  match e.2 with
  | Event.lpush v true => some v
  | _ => none

/-- The ticket an event admits, for a call of `forwardTraffic`. -/
def admittedBy (e : Nat × Event) : Option String :=
  match e.2 with
  | Event.forwardCall v => some v
  | _ => none

/-- Tickets in the order in which `LPush` enqueued them. -/
def enqueuedSeq (g : Gateway) : List String := g.trace.filterMap enqueuedBy

/-- Tickets in the order in which their handlers were admitted. -/
def admittedSeq (g : Gateway) : List String := g.trace.filterMap admittedBy

/-- The action is not a failing store command. -/
def storeOk (a : Action) : Bool :=
  match a with
  | Action.run _ (Input.store false) => false
  | _ => true

/-- No worker other than `i` is between its `RPop` and its `RPush`. -/
def othersIdle (ws : List Worker) (i : Nat) : Bool :=
  (held (ws.take i) ++ held (ws.drop (i + 1))).isEmpty

/-- A store command of worker `i` does not fall into the poll iteration of
another worker. -/
def atomicAt (g : Gateway) (a : Action) : Bool :=
  match a with
  | Action.run i (Input.store _) => othersIdle g.workers i
  | _ => true

/-- Every poll iteration of the schedule runs without a store command of
another worker between its `RPop` and its `RPush`. -/
def atomicSched (g : Gateway) : List Action → Bool
  | [] => true
  | a :: rest => atomicAt g a && atomicSched (step g a) rest

/-- The action in which worker `i` completes a store command successfully. -/
def st (i : Nat) : Action := Action.run i (Input.store true)

/-- Three connections for the examples. -/
def demoConns : List (String × Int) :=
  [("10.0.0.1:40000", 17), ("10.0.0.2:40000", 18), ("10.0.0.3:40000", 19)]

/-- A gateway whose queue holds `maxQueue` tickets when a connection arrives. -/
def fullGateway : Gateway :=
  { queue := List.replicate 5000 "10.0.0.9:1-1", loginAttempts := 5000, queueSize := 4999,
    workers := [Worker.accepted "10.0.0.1:40000" 17], trace := [] }

/-- Handlers 0, 1 and 2 have enqueued their tickets, in this order. -/
def demoQueued : Gateway :=
  exec (Gateway.init demoConns) [st 0, st 0, st 1, st 1, st 2, st 2]

/-- Handler 0 has enqueued its ticket; handler 1 has not started. -/
def demoBaseline : Gateway :=
  exec (Gateway.init demoConns) [st 0, st 0]

/-- Handler 1 enqueues, its client closes the connection, and handler 1 runs
one more poll iteration. -/
def demoAbandoned : Gateway :=
  exec demoBaseline [st 1, st 1, Action.clientClose 1, st 1, st 1]

/-- Handler 0 is admitted and its relay is established. -/
def demoRelay : Gateway :=
  exec (Gateway.init demoConns) [st 0, st 0, st 0, Action.run 0 (Input.dial none)]

/-- What one step does to the queue, to the worker that moves, and to the
sequences of enqueued and admitted tickets. -/
inductive Change (g : Gateway) (a : Action) (g1 : Gateway) : Prop
  | same (h : g1 = g)
  | quiet (l1 l2 : List Worker) (w w1 : Worker)
      (hws : g.workers = l1 ++ w :: l2) (hws1 : g1.workers = l1 ++ w1 :: l2)
      (hid : w1.id = w.id) (hq : g1.queue = g.queue)
      (he : enqueuedSeq g1 = enqueuedSeq g) (ha : admittedSeq g1 = admittedSeq g)
      (hh : heldOf w1.pc = heldOf w.pc)
  | push (l1 l2 : List Worker) (w w1 : Worker)
      (hws : g.workers = l1 ++ w :: l2) (hws1 : g1.workers = l1 ++ w1 :: l2)
      (hid : w1.id = w.id) (hact : a = Action.run l1.length (Input.store true))
      (hpc : w.pc = Pc.enqueue) (hpc1 : w1.pc = Pc.poll)
      (hq : g1.queue = w.id :: g.queue)
      (he : enqueuedSeq g1 = enqueuedSeq g ++ [w.id]) (ha : admittedSeq g1 = admittedSeq g)
  | popOwn (l1 l2 : List Worker) (w w1 : Worker)
      (hws : g.workers = l1 ++ w :: l2) (hws1 : g1.workers = l1 ++ w1 :: l2)
      (hid : w1.id = w.id) (hact : a = Action.run l1.length (Input.store true))
      (hpc : w.pc = Pc.poll) (hpc1 : w1.pc = Pc.forward)
      (hq : g.queue = g1.queue ++ [w.id])
      (he : enqueuedSeq g1 = enqueuedSeq g) (ha : admittedSeq g1 = admittedSeq g ++ [w.id])
  | popForeign (h : String) (l1 l2 : List Worker) (w w1 : Worker)
      (hws : g.workers = l1 ++ w :: l2) (hws1 : g1.workers = l1 ++ w1 :: l2)
      (hid : w1.id = w.id) (hact : a = Action.run l1.length (Input.store true))
      (hpc : w.pc = Pc.poll) (hpc1 : w1.pc = Pc.holding h)
      (hq : g.queue = g1.queue ++ [h])
      (he : enqueuedSeq g1 = enqueuedSeq g) (ha : admittedSeq g1 = admittedSeq g)
  | pushBack (h : String) (l1 l2 : List Worker) (w w1 : Worker)
      (hws : g.workers = l1 ++ w :: l2) (hws1 : g1.workers = l1 ++ w1 :: l2)
      (hid : w1.id = w.id) (hact : a = Action.run l1.length (Input.store true))
      (hpc : w.pc = Pc.holding h) (hpc1 : w1.pc = Pc.poll)
      (hq : g1.queue = g.queue ++ [h])
      (he : enqueuedSeq g1 = enqueuedSeq g) (ha : admittedSeq g1 = admittedSeq g)

/-- The invariant behind the absence of double admission: every enqueued
ticket is in exactly one of the queue, the hands of a worker, and the
admitted tickets, as often as it was enqueued. -/
def Conserved (g : Gateway) : Prop :=
  ∀ t, g.queue.count t + (held g.workers).count t + (admittedSeq g).count t =
    (enqueuedSeq g).count t

/-- The invariant behind admission in arrival order: the enqueued tickets
are the admitted ones followed by the queue and the held ticket, read from
the dequeue end. -/
def InOrder (g : Gateway) : Prop :=
  enqueuedSeq g = admittedSeq g ++ (g.queue ++ held g.workers).reverse

/-! ## Tickets -/

theorem digitChar_value (k : Nat) (hk : k < 10) : (Nat.digitChar k).toNat - 48 = k := by
  interval_cases k <;> rfl

theorem digitChar_ne_dash (k : Nat) (hk : k < 10) : Nat.digitChar k ≠ '-' := by
  interval_cases k <;> decide

theorem decimalValue_toDigitsCore (fuel : Nat) :
    ∀ (n : Nat) (ds : List Char), n < fuel →
      decimalValue (Nat.toDigitsCore 10 fuel n ds) 0 = decimalValue ds n := by
  induction fuel with
  | zero => intro n ds h; omega
  | succ f ih =>
    intro n ds h
    have hmod : n % 10 < 10 := Nat.mod_lt _ (by decide)
    simp only [Nat.toDigitsCore]
    split
    · rename_i h0
      have hn : n % 10 = n := by omega
      have hv := digitChar_value _ hmod
      simp only [decimalValue, List.foldl_cons, Nat.mul_zero, Nat.zero_add]
      rw [hv, hn]
    · rename_i h0
      rw [ih (n / 10) _ (by omega)]
      simp only [decimalValue, List.foldl_cons, digitChar_value _ hmod]
      congr 1
      omega

theorem toDigitsCore_no_dash (fuel : Nat) :
    ∀ (n : Nat) (ds : List Char), '-' ∉ ds → '-' ∉ Nat.toDigitsCore 10 fuel n ds := by
  induction fuel with
  | zero => intro n ds h; simpa [Nat.toDigitsCore] using h
  | succ f ih =>
    intro n ds h
    have hmod : n % 10 < 10 := Nat.mod_lt _ (by decide)
    have hd := digitChar_ne_dash _ hmod
    simp only [Nat.toDigitsCore]
    split
    · simp only [List.mem_cons, not_or]
      exact ⟨fun e => hd e.symm, h⟩
    · apply ih
      simp only [List.mem_cons, not_or]
      exact ⟨fun e => hd e.symm, h⟩

theorem repr_data_injective (m n : Nat) (h : (Nat.repr m).data = (Nat.repr n).data) : m = n := by
  have hm := decimalValue_toDigitsCore (m + 1) m [] (by omega)
  have hn := decimalValue_toDigitsCore (n + 1) n [] (by omega)
  simp only [Nat.repr, Nat.toDigits, List.asString] at h
  rw [h] at hm
  rw [hm] at hn
  simpa [decimalValue] using hn

theorem repr_no_dash (n : Nat) : '-' ∉ (Nat.repr n).data := by
  simp only [Nat.repr, Nat.toDigits, List.asString]
  exact toDigitsCore_no_dash _ _ _ (by simp)

theorem split_at_last {α : Type} (x : α) :
    ∀ (l1 l2 r1 r2 : List α), x ∉ r1 → x ∉ r2 → l1 ++ x :: r1 = l2 ++ x :: r2 →
      l1 = l2 ∧ r1 = r2 := by
  intro l1 l2 r1 r2 h1 h2 h
  rcases List.append_eq_append_iff.mp h with ⟨a, ha, hb⟩ | ⟨c, hc, hd⟩
  · cases a with
    | nil => simp at ha hb; exact ⟨ha.symm, hb⟩
    | cons y a =>
      simp at hb
      exact absurd (hb.2 ▸ (by simp)) h1
  · cases c with
    | nil => simp at hc hd; exact ⟨hc, hd.symm⟩
    | cons y c =>
      simp at hd
      exact absurd (hd.2 ▸ (by simp)) h2

theorem ticket_data (a : String) (n : Nat) :
    (ticket a (n : Int)).data = a.data ++ '-' :: (Nat.repr n).data := by
  simp [ticket, toString, Int.repr]

/-- Claim C10: the ticket built from a remote address, a dash and the decimal
rendering of a non-negative timestamp determines both the address and the
timestamp, so two tickets are equal only if address and timestamp are. -/
theorem ticket_injective (a1 a2 : String) (t1 t2 : Int) (h1 : 0 ≤ t1) (h2 : 0 ≤ t2)
    (h : ticket a1 t1 = ticket a2 t2) : a1 = a2 ∧ t1 = t2 := by
  obtain ⟨n1, rfl⟩ := Int.eq_ofNat_of_zero_le h1
  obtain ⟨n2, rfl⟩ := Int.eq_ofNat_of_zero_le h2
  have hd := congrArg String.data h
  rw [ticket_data, ticket_data] at hd
  obtain ⟨ha, hr⟩ := split_at_last '-' _ _ _ _ (repr_no_dash n1) (repr_no_dash n2) hd
  exact ⟨String.ext ha, by rw [repr_data_injective n1 n2 hr]⟩


/-- An instance of the preceding theorem. -/
theorem ticket_injective_witness :
    (0 : Int) ≤ 17 ∧ ticket "10.0.0.1:40000" 17 = ticket "10.0.0.1:40000" 17 ∧
      ("10.0.0.1:40000" = "10.0.0.1:40000" ∧ (17 : Int) = 17) :=
  ⟨by decide, rfl, ticket_injective "10.0.0.1:40000" "10.0.0.1:40000" 17 17 (by decide) (by decide) rfl⟩

/-! ## One step of a worker -/

theorem step_run (g : Gateway) (i : Nat) (w : Worker) (inp : Input)
    (h : g.workers[i]? = some w) : step g (Action.run i inp) = handleClient g i w inp := by
  simp [step, h]

theorem step_run_none (g : Gateway) (i : Nat) (inp : Input)
    (h : g.workers[i]? = none) : step g (Action.run i inp) = g := by
  simp [step, h]

theorem rpop_nil : RPop [] = (none, []) := rfl

theorem rpop_concat (q : Queue) (h : String) : RPop (q ++ [h]) = (some h, q) := by
  simp [RPop]

theorem lt_of_getElem? {α : Type} (l : List α) (i : Nat) (a : α) (h : l[i]? = some a) :
    i < l.length := by
  rcases Nat.lt_or_ge i l.length with h1 | h1
  · exact h1
  · rw [List.getElem?_eq_none h1] at h; cases h

theorem getElem?_set_self {α : Type} (l : List α) (i : Nat) (a b : α) (h : l[i]? = some a) :
    (l.set i b)[i]? = some b := by
  have hi := lt_of_getElem? l i a h
  simp [hi]

theorem split_at {α : Type} (l : List α) (i : Nat) (a : α) (h : l[i]? = some a) :
    ∃ l1 l2, l = l1 ++ a :: l2 ∧ l1.length = i ∧ ∀ b, l.set i b = l1 ++ b :: l2 := by
  induction l generalizing i with
  | nil => simp at h
  | cons x xs ih =>
    cases i with
    | zero =>
      simp at h
      exact ⟨[], xs, by simp [h], rfl, fun b => by simp⟩
    | succ n =>
      simp at h
      obtain ⟨l1, l2, h1, h2, h3⟩ := ih n h
      exact ⟨x :: l1, l2, by simp [h1], by simp [h2], fun b => by simp [h3 b]⟩

theorem ticket_ne_empty (a : String) (t : Int) : ticket a t ≠ "" := by
  intro h
  have hd := congrArg String.data h
  simp [ticket] at hd

/-- The capacity check fails: the handler writes the refusal and returns. -/
theorem step_start_full (g : Gateway) (i : Nat) (w : Worker) (ok : Bool)
    (hw : g.workers[i]? = some w) (hpc : w.pc = Pc.start)
    (hfull : llenResult ok g.queue ≥ maxQueue) :
    step g (Action.run i (Input.store ok)) =
      { queue := g.queue, loginAttempts := g.loginAttempts + 1,
        queueSize := llenResult ok g.queue,
        workers := g.workers.set i { w with pc := Pc.done },
        trace := g.trace ++ [(i, Event.llen ok (llenResult ok g.queue)),
          (i, Event.write "Server is full. Try again later.\n"), (i, Event.close)] } := by
  rw [step_run g i w _ hw]
  simp [handleClient, hpc, Gateway.put, hfull]

theorem step_start_pass (g : Gateway) (i : Nat) (w : Worker) (ok : Bool)
    (hw : g.workers[i]? = some w) (hpc : w.pc = Pc.start)
    (hfree : ¬ llenResult ok g.queue ≥ maxQueue) :
    step g (Action.run i (Input.store ok)) =
      { queue := g.queue, loginAttempts := g.loginAttempts + 1,
        queueSize := llenResult ok g.queue,
        workers := g.workers.set i { w with pc := Pc.enqueue },
        trace := g.trace ++ [(i, Event.llen ok (llenResult ok g.queue))] } := by
  rw [step_run g i w _ hw]
  simp [handleClient, hpc, Gateway.put, hfree]

theorem step_enqueue (g : Gateway) (i : Nat) (w : Worker)
    (hw : g.workers[i]? = some w) (hpc : w.pc = Pc.enqueue) :
    step g (Action.run i (Input.store true)) =
      { g with
        queue := w.id :: g.queue,
        workers := g.workers.set i { w with pc := Pc.poll },
        trace := g.trace ++ [(i, Event.lpush w.id true), (i, Event.log ("Enqueued " ++ w.id))] } := by
  rw [step_run g i w _ hw]
  simp [handleClient, hpc, Gateway.put, LPush]

theorem step_enqueue_fail (g : Gateway) (i : Nat) (w : Worker)
    (hw : g.workers[i]? = some w) (hpc : w.pc = Pc.enqueue) :
    step g (Action.run i (Input.store false)) =
      { g with
        workers := g.workers.set i { w with pc := Pc.poll },
        trace := g.trace ++ [(i, Event.lpush w.id false), (i, Event.log ("Enqueued " ++ w.id))] } := by
  rw [step_run g i w _ hw]
  simp [handleClient, hpc, Gateway.put]

theorem step_poll_empty (g : Gateway) (i : Nat) (w : Worker)
    (hw : g.workers[i]? = some w) (hpc : w.pc = Pc.poll) (hq : g.queue = []) :
    step g (Action.run i (Input.store true)) =
      { g with
        workers := g.workers.set i { w with pc := Pc.poll },
        trace := g.trace ++ [(i, Event.rpop "" RedisErr.nil), (i, Event.sleep 100)] } := by
  rw [step_run g i w _ hw]
  simp [handleClient, hpc, Gateway.put, rpopResult, hq, rpop_nil]

theorem step_poll_own (g : Gateway) (i : Nat) (w : Worker) (q : Queue)
    (hw : g.workers[i]? = some w) (hpc : w.pc = Pc.poll) (hq : g.queue = q ++ [w.id]) :
    step g (Action.run i (Input.store true)) =
      { g with
        queue := q,
        workers := g.workers.set i { w with pc := Pc.forward },
        trace := g.trace ++ [(i, Event.rpop w.id RedisErr.none), (i, Event.forwardCall w.id)] } := by
  rw [step_run g i w _ hw]
  simp [handleClient, hpc, Gateway.put, rpopResult, hq, rpop_concat]

theorem step_poll_foreign (g : Gateway) (i : Nat) (w : Worker) (q : Queue) (h : String)
    (hw : g.workers[i]? = some w) (hpc : w.pc = Pc.poll) (hq : g.queue = q ++ [h])
    (hne : h ≠ w.id) :
    step g (Action.run i (Input.store true)) =
      { g with
        queue := q,
        workers := g.workers.set i { w with pc := Pc.holding h },
        trace := g.trace ++ [(i, Event.rpop h RedisErr.none)] } := by
  rw [step_run g i w _ hw]
  simp [handleClient, hpc, Gateway.put, rpopResult, hq, rpop_concat, hne]

theorem step_poll_fail (g : Gateway) (i : Nat) (w : Worker)
    (hw : g.workers[i]? = some w) (hpc : w.pc = Pc.poll) :
    step g (Action.run i (Input.store false)) =
      { g with
        workers := g.workers.set i { w with pc := Pc.holding "" },
        trace := g.trace ++ [(i, Event.rpop "" RedisErr.other)] } := by
  rw [step_run g i w _ hw]
  have hne : ¬ "" = w.id := fun e => ticket_ne_empty _ _ e.symm
  simp [handleClient, hpc, Gateway.put, rpopResult, hne]

theorem step_holding (g : Gateway) (i : Nat) (w : Worker) (h : String)
    (hw : g.workers[i]? = some w) (hpc : w.pc = Pc.holding h) :
    step g (Action.run i (Input.store true)) =
      { g with
        queue := g.queue ++ [h],
        workers := g.workers.set i { w with pc := Pc.poll },
        trace := g.trace ++ [(i, Event.rpush h true), (i, Event.sleep 500)] } := by
  rw [step_run g i w _ hw]
  simp [handleClient, hpc, Gateway.put, RPush]

theorem step_dial_fail (g : Gateway) (i : Nat) (w : Worker) (err : String)
    (hw : g.workers[i]? = some w) (hpc : w.pc = Pc.forward) :
    step g (Action.run i (Input.dial (some err))) =
      { g with
        workers := g.workers.set i { w with pc := Pc.done },
        trace := g.trace ++ [(i, Event.dial authServer false),
          (i, Event.log ("Authserver unreachable: " ++ err)),
          (i, Event.write "Authserver is down. Try later.\n"), (i, Event.close)] } := by
  rw [step_run g i w _ hw]
  simp [handleClient, forwardTraffic, hpc, Gateway.put]

theorem step_dial_ok (g : Gateway) (i : Nat) (w : Worker)
    (hw : g.workers[i]? = some w) (hpc : w.pc = Pc.forward) :
    step g (Action.run i (Input.dial none)) =
      { g with
        workers := g.workers.set i { w with pc := Pc.relay false },
        trace := g.trace ++ [(i, Event.dial authServer true)] } := by
  rw [step_run g i w _ hw]
  simp [handleClient, forwardTraffic, hpc, Gateway.put]

theorem step_copy_c2b (g : Gateway) (i : Nat) (w : Worker)
    (hw : g.workers[i]? = some w) (hpc : w.pc = Pc.relay false) :
    step g (Action.run i (Input.copyEnd Dir.clientToBackend)) =
      { g with
        workers := g.workers.set i { w with pc := Pc.relay true },
        trace := g.trace ++ [(i, Event.copyEnded)] } := by
  rw [step_run g i w _ hw]
  simp [handleClient, forwardTraffic, hpc, Gateway.put]

theorem step_copy_b2c (g : Gateway) (i : Nat) (w : Worker) (c2b : Bool)
    (hw : g.workers[i]? = some w) (hpc : w.pc = Pc.relay c2b) :
    step g (Action.run i (Input.copyEnd Dir.backendToClient)) =
      { g with
        workers := g.workers.set i { w with pc := Pc.done },
        trace := g.trace ++ [(i, Event.closeBackend), (i, Event.close)] } := by
  rw [step_run g i w _ hw]
  cases c2b <;> simp [handleClient, forwardTraffic, hpc, Gateway.put]

theorem step_done (g : Gateway) (i : Nat) (w : Worker) (inp : Input)
    (hw : g.workers[i]? = some w) (hpc : w.pc = Pc.done) :
    step g (Action.run i inp) = g := by
  rw [step_run g i w _ hw]
  simp [handleClient, hpc]

/-! ## Claims about one handler -/

/-- Claim C1: if the depth that `LLen` reports is at least `maxQueue`, the
handler writes the line "Server is full. Try again later." to the connection,
closes it and returns: the queue is what it was, nothing is pushed (the only
store command in the trace is the `LLEN`), the poll loop is not entered, and
the handler takes no further step. -/
theorem capacity_rejection (g : Gateway) (i : Nat) (w : Worker) (ok : Bool)
    (hw : g.workers[i]? = some w) (hpc : w.pc = Pc.start)
    (hfull : llenResult ok g.queue ≥ maxQueue) :
    (step g (Action.run i (Input.store ok))).queue = g.queue ∧
    (step g (Action.run i (Input.store ok))).trace =
      g.trace ++ [(i, Event.llen ok (llenResult ok g.queue)),
        (i, Event.write "Server is full. Try again later.\n"), (i, Event.close)] ∧
    (step g (Action.run i (Input.store ok))).workers[i]? = some { w with pc := Pc.done } ∧
    ∀ inp, step (step g (Action.run i (Input.store ok))) (Action.run i inp) =
      step g (Action.run i (Input.store ok)) := by
  rw [step_start_full g i w ok hw hpc hfull]
  refine ⟨rfl, rfl, getElem?_set_self _ _ _ _ hw, fun inp => ?_⟩
  exact step_done _ i { w with pc := Pc.done } inp (getElem?_set_self _ _ _ _ hw) rfl

/-- An instance of the preceding theorem with a queue of `maxQueue` tickets. -/
theorem capacity_rejection_witness :
    (step fullGateway (st 0)).queue = fullGateway.queue ∧
    (step fullGateway (st 0)).trace =
      [(0, Event.llen true 5000),
        (0, Event.write "Server is full. Try again later.\n"), (0, Event.close)] := by
  have h := capacity_rejection fullGateway 0 (Worker.accepted "10.0.0.1:40000" 17) true rfl rfl
    (by simp only [llenResult, LLen, maxQueue, fullGateway, List.length_replicate, if_true]
        decide)
  refine ⟨h.1, ?_⟩
  have h2 := h.2.1
  simp only [llenResult, LLen, fullGateway, List.length_replicate, if_true, List.nil_append] at h2
  exact h2


/-- Claim C2 fails as stated: with the queue `q ++ [h]` and `h` foreign to
handler 2, the poll iteration of handler 2 does not leave `[h] ++ q`. -/
theorem requeue_counterexample :
    demoQueued.queue = ["10.0.0.3:40000-19", "10.0.0.2:40000-18"] ++ ["10.0.0.1:40000-17"] ∧
    demoQueued.workers[2]? =
      some { remoteAddr := "10.0.0.3:40000", now := 19, pc := Pc.poll, clientGone := false } ∧
    (exec demoQueued [st 2, st 2]).queue ≠
      ["10.0.0.1:40000-17"] ++ ["10.0.0.3:40000-19", "10.0.0.2:40000-18"] := by
  decide

/-- Claim C2 as amended: a poll iteration that finds a foreign ticket `h` at
the dequeue end removes it with `RPop` and puts it back with `RPush`, that is
at the dequeue end again: the queue `q ++ [h]` is `q` in between and `q ++ [h]`
afterwards, the handler has slept 500 ms and is at the top of the loop. -/
theorem requeue_at_dequeue_end (g : Gateway) (i : Nat) (w : Worker) (q : Queue) (h : String)
    (hw : g.workers[i]? = some w) (hpc : w.pc = Pc.poll) (hq : g.queue = q ++ [h])
    (hne : h ≠ w.id) :
    (step g (st i)).queue = q ∧
    (step g (st i)).workers[i]? = some { w with pc := Pc.holding h } ∧
    (exec g [st i, st i]).queue = q ++ [h] ∧
    (exec g [st i, st i]).workers[i]? = some { w with pc := Pc.poll } ∧
    (exec g [st i, st i]).trace = g.trace ++
      [(i, Event.rpop h RedisErr.none), (i, Event.rpush h true), (i, Event.sleep 500)] := by
  have h1 := step_poll_foreign g i w q h hw hpc hq hne
  have hw1 : (step g (st i)).workers[i]? = some { w with pc := Pc.holding h } := by
    rw [st, h1]; exact getElem?_set_self _ _ _ _ hw
  have h2 := step_holding (step g (st i)) i _ h hw1 rfl
  simp only [exec, List.foldl]
  rw [st] at h2 hw1 ⊢
  rw [h2, h1]
  have hi := lt_of_getElem? _ _ _ hw
  simp [hi]

/-- An instance of the preceding theorem. -/
theorem requeue_at_dequeue_end_witness :
    (exec demoQueued [st 2, st 2]).queue =
      ["10.0.0.3:40000-19", "10.0.0.2:40000-18"] ++ ["10.0.0.1:40000-17"] :=
  (requeue_at_dequeue_end demoQueued 2
    { remoteAddr := "10.0.0.3:40000", now := 19, pc := Pc.poll, clientGone := false }
    ["10.0.0.3:40000-19", "10.0.0.2:40000-18"] "10.0.0.1:40000-17"
    (by decide) rfl (by decide) (by decide)).2.2.1


/-- Claim C5 fails as stated: after the client of handler 1 has closed the
connection, the next poll iteration of handler 1 leaves the handler in the
poll loop and its ticket in the queue, whose length stays above the
baseline. -/
theorem abandonment_counterexample :
    demoBaseline.queue.length = 1 ∧
    demoAbandoned.workers[1]? =
      some { remoteAddr := "10.0.0.2:40000", now := 18, pc := Pc.poll, clientGone := true } ∧
    "10.0.0.2:40000-18" ∈ demoAbandoned.queue ∧
    demoAbandoned.queue.length = 2 := by
  decide

/-- Claim C5 as amended: the poll loop does not look at the connection.  For
a handler in the poll loop whose client has closed the connection, an
iteration that finds a foreign ticket at the dequeue end puts it back, leaves
the queue as it was (the own ticket stays in it, the length is unchanged) and
returns to the top of the loop; the own ticket leaves the queue only when the
handler pops it from the dequeue end, and then `forwardTraffic` is called. -/
theorem abandonment_not_observed (g : Gateway) (i : Nat) (w : Worker) (q : Queue) (h : String)
    (hw : g.workers[i]? = some w) (hpc : w.pc = Pc.poll) (hgone : w.clientGone = true)
    (hq : g.queue = q ++ [h]) :
    (h ≠ w.id →
      (exec g [st i, st i]).queue = g.queue ∧
      (exec g [st i, st i]).workers[i]? =
        some { remoteAddr := w.remoteAddr, now := w.now, pc := Pc.poll, clientGone := true }) ∧
    (h = w.id →
      (step g (st i)).queue = q ∧
      (step g (st i)).workers[i]? =
        some { remoteAddr := w.remoteAddr, now := w.now, pc := Pc.forward, clientGone := true } ∧
      (step g (st i)).trace = g.trace ++
        [(i, Event.rpop w.id RedisErr.none), (i, Event.forwardCall w.id)]) := by
  have hi := lt_of_getElem? _ _ _ hw
  constructor
  · intro hne
    have h1 := step_poll_foreign g i w q h hw hpc hq hne
    have hw1 : (step g (st i)).workers[i]? = some { w with pc := Pc.holding h } := by
      rw [st, h1]; exact getElem?_set_self _ _ _ _ hw
    have h2 := step_holding (step g (st i)) i _ h hw1 rfl
    simp only [exec, List.foldl]
    rw [st] at h2 hw1 ⊢
    rw [h2, h1]
    simp [hi, hq, hgone]
  · intro he
    subst he
    have h1 := step_poll_own g i w q hw hpc hq
    rw [st, h1]
    simp [hi, hgone]

/-- An instance of the preceding theorem: the state of
`abandonment_counterexample` before the last iteration. -/
theorem abandonment_not_observed_witness :
    (exec (exec demoBaseline [st 1, st 1, Action.clientClose 1]) [st 1, st 1]).queue =
      (exec demoBaseline [st 1, st 1, Action.clientClose 1]).queue :=
  ((abandonment_not_observed (exec demoBaseline [st 1, st 1, Action.clientClose 1]) 1
    { remoteAddr := "10.0.0.2:40000", now := 18, pc := Pc.poll, clientGone := true }
    ["10.0.0.2:40000-18"] "10.0.0.1:40000-17"
    (by decide) rfl rfl (by decide)).1 (by decide)).1

/-- Claim C6 fails on the code: when `RPop` fails in the poll iteration of
handler 2, nothing is logged and the empty string is pushed onto the dequeue
end of the queue. -/
theorem poll_error_pushes_empty_string :
    (exec demoQueued [Action.run 2 (Input.store false), st 2]).queue =
      demoQueued.queue ++ [""] ∧
    (exec demoQueued [Action.run 2 (Input.store false), st 2]).trace =
      demoQueued.trace ++
        [(2, Event.rpop "" RedisErr.other), (2, Event.rpush "" true), (2, Event.sleep 500)] := by
  decide

/-- Claim C7: a handler that starts on an empty queue and is alone at the
store enqueues its ticket, gets exactly this ticket from its first `RPop` and
calls `forwardTraffic`; up to that call it neither sleeps nor pushes anything
back, and the queue is empty again. -/
theorem single_connection_fast_path (g : Gateway) (i : Nat) (w : Worker)
    (hw : g.workers[i]? = some w) (hpc : w.pc = Pc.start) (hq : g.queue = []) :
    (exec g [st i, st i]).queue = [w.id] ∧
    (exec g [st i, st i, st i]).queue = [] ∧
    (exec g [st i, st i, st i]).workers[i]? = some { w with pc := Pc.forward } ∧
    (exec g [st i, st i, st i]).trace = g.trace ++
      [(i, Event.llen true 0), (i, Event.lpush w.id true), (i, Event.log ("Enqueued " ++ w.id)),
        (i, Event.rpop w.id RedisErr.none), (i, Event.forwardCall w.id)] := by
  have hi := lt_of_getElem? _ _ _ hw
  have hfree : ¬ llenResult true g.queue ≥ maxQueue := by
    simp [llenResult, LLen, hq, maxQueue]
  have h1 := step_start_pass g i w true hw hpc hfree
  have hw1 : (step g (st i)).workers[i]? = some { w with pc := Pc.enqueue } := by
    rw [st, h1]; exact getElem?_set_self _ _ _ _ hw
  have h2 := step_enqueue (step g (st i)) i _ hw1 rfl
  have hw2 : (step (step g (st i)) (st i)).workers[i]? = some { w with pc := Pc.poll } := by
    rw [st] at h2 ⊢; rw [h2, h1]; simp [hi]
  have hq2 : (step (step g (st i)) (st i)).queue = [] ++ [w.id] := by
    rw [st] at h2 ⊢; rw [h2, h1]; simp [hq, Worker.id]
  have h3 := step_poll_own (step (step g (st i)) (st i)) i _ [] hw2 rfl hq2
  simp only [exec, List.foldl]
  refine ⟨by simpa using hq2, ?_⟩
  rw [st] at h2 h3 hw1 hw2 ⊢
  rw [h3, h2, h1]
  simp [hi, llenResult, LLen, hq, Worker.id]

/-- An instance of the preceding theorem. -/
theorem single_connection_fast_path_witness :
    (exec (Gateway.init demoConns) [st 0, st 0, st 0]).queue = [] ∧
    (exec (Gateway.init demoConns) [st 0, st 0, st 0]).workers[0]? =
      some { remoteAddr := "10.0.0.1:40000", now := 17, pc := Pc.forward, clientGone := false } :=
  have h := single_connection_fast_path (Gateway.init demoConns) 0
    (Worker.accepted "10.0.0.1:40000" 17) rfl rfl rfl
  ⟨h.2.1, h.2.2.1⟩


/-- Claim C8: when the dial of an admitted handler fails, `forwardTraffic`
dials once, writes the line "Authserver is down. Try later." and returns, and
`handleClient` closes the client connection and takes no further step.  The
ticket left the queue with the `RPop` that admitted the handler, before the
dial, and `forwardTraffic` never changes the queue. -/
theorem backend_unreachable (g : Gateway) (i : Nat) (w : Worker) (q : Queue) (err : String)
    (hw : g.workers[i]? = some w) (hpc : w.pc = Pc.poll) (hq : g.queue = q ++ [w.id]) :
    (step g (st i)).queue = q ∧
    (exec g [st i, Action.run i (Input.dial (some err))]).queue = q ∧
    (exec g [st i, Action.run i (Input.dial (some err))]).trace = g.trace ++
      [(i, Event.rpop w.id RedisErr.none), (i, Event.forwardCall w.id),
        (i, Event.dial authServer false), (i, Event.log ("Authserver unreachable: " ++ err)),
        (i, Event.write "Authserver is down. Try later.\n"), (i, Event.close)] ∧
    (exec g [st i, Action.run i (Input.dial (some err))]).workers[i]? =
      some { w with pc := Pc.done } ∧
    (∀ inp, step (exec g [st i, Action.run i (Input.dial (some err))]) (Action.run i inp) =
      exec g [st i, Action.run i (Input.dial (some err))]) ∧
    (∀ (g0 : Gateway) (j : Nat) (w0 : Worker) (inp : Input),
      (forwardTraffic g0 j w0 inp).1.queue = g0.queue) := by
  have hi := lt_of_getElem? _ _ _ hw
  have h1 := step_poll_own g i w q hw hpc hq
  have hw1 : (step g (st i)).workers[i]? = some { w with pc := Pc.forward } := by
    rw [st, h1]; exact getElem?_set_self _ _ _ _ hw
  have h2 := step_dial_fail (step g (st i)) i _ err hw1 rfl
  have hw2 : (exec g [st i, Action.run i (Input.dial (some err))]).workers[i]? =
      some { w with pc := Pc.done } := by
    simp only [exec, List.foldl]
    rw [h2]; rw [st, h1]; simp [hi]
  refine ⟨by rw [st, h1], ?_, ?_, hw2, ?_, ?_⟩
  · simp only [exec, List.foldl]
    rw [h2]; rw [st, h1]
  · simp only [exec, List.foldl]
    rw [h2]; rw [st, h1]
    simp
  · intro inp
    exact step_done _ i _ inp hw2 rfl
  · intro g0 j w0 inp
    unfold forwardTraffic
    split <;> rfl

/-- An instance of the preceding theorem: handler 0 is alone, is admitted, and
the dial fails. -/
theorem backend_unreachable_witness :
    (exec demoBaseline [st 0, Action.run 0 (Input.dial (some "connection refused"))]).queue = [] ∧
    (exec demoBaseline [st 0, Action.run 0 (Input.dial (some "connection refused"))]).workers[0]? =
      some { remoteAddr := "10.0.0.1:40000", now := 17, pc := Pc.done, clientGone := false } :=
  have h := backend_unreachable demoBaseline 0
    { remoteAddr := "10.0.0.1:40000", now := 17, pc := Pc.poll, clientGone := false } []
    "connection refused" (by decide) rfl (by decide)
  ⟨h.2.1, h.2.2.2.1⟩

/-- Claim C9 fails as stated: when the copy from the client to the backend
ends first, `forwardTraffic` has not returned and neither connection is
closed. -/
theorem teardown_counterexample :
    demoRelay.workers[0]? =
      some { remoteAddr := "10.0.0.1:40000", now := 17, pc := Pc.relay false,
             clientGone := false } ∧
    (step demoRelay (Action.run 0 (Input.copyEnd Dir.clientToBackend))).workers[0]? =
      some { remoteAddr := "10.0.0.1:40000", now := 17, pc := Pc.relay true,
             clientGone := false } ∧
    (0, Event.close) ∉
      (step demoRelay (Action.run 0 (Input.copyEnd Dir.clientToBackend))).trace ∧
    (0, Event.closeBackend) ∉
      (step demoRelay (Action.run 0 (Input.copyEnd Dir.clientToBackend))).trace := by
  decide

/-- Claim C9 as amended: once the relay is established, `forwardTraffic`
returns, and the backend and the client connection are closed, exactly when
the copy from the backend to the client ends, whether or not the other copy
has ended; the end of the copy from the client to the backend alone closes
nothing and leaves `forwardTraffic` waiting for the other copy. -/
theorem teardown_on_backend_copy (g : Gateway) (i : Nat) (w : Worker) (c2b : Bool)
    (hw : g.workers[i]? = some w) (hpc : w.pc = Pc.relay c2b) :
    (step g (Action.run i (Input.copyEnd Dir.backendToClient))).workers[i]? =
      some { w with pc := Pc.done } ∧
    (step g (Action.run i (Input.copyEnd Dir.backendToClient))).trace =
      g.trace ++ [(i, Event.closeBackend), (i, Event.close)] ∧
    (step g (Action.run i (Input.copyEnd Dir.clientToBackend))).workers[i]? =
      some { w with pc := Pc.relay true } ∧
    (step g (Action.run i (Input.copyEnd Dir.clientToBackend))).trace =
      g.trace ++ (if c2b then [] else [(i, Event.copyEnded)]) := by
  have hi := lt_of_getElem? _ _ _ hw
  rw [step_copy_b2c g i w c2b hw hpc]
  refine ⟨by simp [hi], rfl, ?_⟩
  cases c2b with
  | false =>
    rw [step_copy_c2b g i w hw hpc]
    simp [hi]
  | true =>
    have hs : step g (Action.run i (Input.copyEnd Dir.clientToBackend)) = g := by
      rw [step_run g i w _ hw]
      simp [handleClient, forwardTraffic, hpc]
    rw [hs]
    refine ⟨?_, by simp⟩
    rw [hw, ← hpc]

/-- An instance of the preceding theorem. -/
theorem teardown_on_backend_copy_witness :
    (step demoRelay (Action.run 0 (Input.copyEnd Dir.backendToClient))).trace =
      demoRelay.trace ++ [(0, Event.closeBackend), (0, Event.close)] :=
  (teardown_on_backend_copy demoRelay 0
    { remoteAddr := "10.0.0.1:40000", now := 17, pc := Pc.relay false, clientGone := false }
    false (by decide) rfl).2.1

/-! ## Every step is one of six changes -/

theorem enqueuedSeq_trace (g : Gateway) (q : Queue) (n : Nat) (z : Int) (ws : List Worker)
    (evs : List (Nat × Event)) :
    enqueuedSeq { queue := q, loginAttempts := n, queueSize := z, workers := ws,
                  trace := g.trace ++ evs } = enqueuedSeq g ++ evs.filterMap enqueuedBy := by
  simp [enqueuedSeq]

theorem admittedSeq_trace (g : Gateway) (q : Queue) (n : Nat) (z : Int) (ws : List Worker)
    (evs : List (Nat × Event)) :
    admittedSeq { queue := q, loginAttempts := n, queueSize := z, workers := ws,
                  trace := g.trace ++ evs } = admittedSeq g ++ evs.filterMap admittedBy := by
  simp [admittedSeq]

theorem step_clientClose_change (g : Gateway) (i : Nat) :
    Change g (Action.clientClose i) (step g (Action.clientClose i)) := by
  cases hw : g.workers[i]? with
  | none => exact Change.same (by simp [step, hw])
  | some w =>
    obtain ⟨l1, l2, h1, _, h3⟩ := split_at g.workers i w hw
    refine Change.quiet l1 l2 w { w with clientGone := true } h1 ?_ rfl ?_ ?_ ?_ rfl
    · simp [step, hw, h3]
    · simp [step, hw]
    · simp [step, hw, enqueuedSeq]
    · simp [step, hw, admittedSeq]

theorem step_run_change (g : Gateway) (i : Nat) (inp : Input)
    (hok : storeOk (Action.run i inp) = true) :
    Change g (Action.run i inp) (step g (Action.run i inp)) := by
  cases hw : g.workers[i]? with
  | none => exact Change.same (step_run_none g i inp hw)
  | some w =>
    obtain ⟨l1, l2, h1, h2, h3⟩ := split_at g.workers i w hw
    cases hpc : w.pc with
    | start =>
      cases inp with
      | store ok =>
        by_cases hfull : llenResult ok g.queue ≥ maxQueue
        · rw [step_start_full g i w ok hw hpc hfull]
          exact Change.quiet l1 l2 w { w with pc := Pc.done } h1 (h3 _) rfl rfl
            (by rw [enqueuedSeq_trace]; simp [enqueuedBy])
            (by rw [admittedSeq_trace]; simp [admittedBy])
            (by simp [heldOf, hpc])
        · rw [step_start_pass g i w ok hw hpc hfull]
          exact Change.quiet l1 l2 w { w with pc := Pc.enqueue } h1 (h3 _) rfl rfl
            (by rw [enqueuedSeq_trace]; simp [enqueuedBy])
            (by rw [admittedSeq_trace]; simp [admittedBy])
            (by simp [heldOf, hpc])
      | dial e => exact Change.same (by rw [step_run g i w _ hw]; simp [handleClient, hpc])
      | copyEnd d => exact Change.same (by rw [step_run g i w _ hw]; simp [handleClient, hpc])
    | enqueue =>
      cases inp with
      | store ok =>
        cases ok with
        | false => simp [storeOk] at hok
        | true =>
          rw [step_enqueue g i w hw hpc]
          exact Change.push l1 l2 w { w with pc := Pc.poll } h1 (h3 _) rfl (by rw [h2]) hpc rfl rfl
            (by rw [enqueuedSeq_trace]; simp [enqueuedBy])
            (by rw [admittedSeq_trace]; simp [admittedBy])
      | dial e => exact Change.same (by rw [step_run g i w _ hw]; simp [handleClient, hpc])
      | copyEnd d => exact Change.same (by rw [step_run g i w _ hw]; simp [handleClient, hpc])
    | poll =>
      cases inp with
      | store ok =>
        cases ok with
        | false => simp [storeOk] at hok
        | true =>
          rcases List.eq_nil_or_concat g.queue with hq | ⟨q, h, hq⟩
          on_goal 2 => rw [List.concat_eq_append] at hq
          · rw [step_poll_empty g i w hw hpc hq]
            exact Change.quiet l1 l2 w { w with pc := Pc.poll } h1 (h3 _) rfl rfl
              (by rw [enqueuedSeq_trace]; simp [enqueuedBy])
              (by rw [admittedSeq_trace]; simp [admittedBy])
              (by simp [heldOf, hpc])
          · by_cases hown : h = w.id
            · subst hown
              rw [step_poll_own g i w q hw hpc hq]
              exact Change.popOwn l1 l2 w { w with pc := Pc.forward } h1 (h3 _) rfl (by rw [h2])
                hpc rfl hq
                (by rw [enqueuedSeq_trace]; simp [enqueuedBy])
                (by rw [admittedSeq_trace]; simp [admittedBy])
            · rw [step_poll_foreign g i w q h hw hpc hq hown]
              exact Change.popForeign h l1 l2 w { w with pc := Pc.holding h } h1 (h3 _) rfl
                (by rw [h2]) hpc rfl hq
                (by rw [enqueuedSeq_trace]; simp [enqueuedBy])
                (by rw [admittedSeq_trace]; simp [admittedBy])
      | dial e => exact Change.same (by rw [step_run g i w _ hw]; simp [handleClient, hpc])
      | copyEnd d => exact Change.same (by rw [step_run g i w _ hw]; simp [handleClient, hpc])
    | holding h =>
      cases inp with
      | store ok =>
        cases ok with
        | false => simp [storeOk] at hok
        | true =>
          rw [step_holding g i w h hw hpc]
          exact Change.pushBack h l1 l2 w { w with pc := Pc.poll } h1 (h3 _) rfl (by rw [h2])
            hpc rfl rfl
            (by rw [enqueuedSeq_trace]; simp [enqueuedBy])
            (by rw [admittedSeq_trace]; simp [admittedBy])
      | dial e => exact Change.same (by rw [step_run g i w _ hw]; simp [handleClient, hpc])
      | copyEnd d => exact Change.same (by rw [step_run g i w _ hw]; simp [handleClient, hpc])
    | forward =>
      cases inp with
      | store ok =>
        exact Change.same (by rw [step_run g i w _ hw]; simp [handleClient, forwardTraffic, hpc])
      | dial e =>
        cases e with
        | none =>
          rw [step_dial_ok g i w hw hpc]
          exact Change.quiet l1 l2 w { w with pc := Pc.relay false } h1 (h3 _) rfl rfl
            (by rw [enqueuedSeq_trace]; simp [enqueuedBy])
            (by rw [admittedSeq_trace]; simp [admittedBy])
            (by simp [heldOf, hpc])
        | some err =>
          rw [step_dial_fail g i w err hw hpc]
          exact Change.quiet l1 l2 w { w with pc := Pc.done } h1 (h3 _) rfl rfl
            (by rw [enqueuedSeq_trace]; simp [enqueuedBy])
            (by rw [admittedSeq_trace]; simp [admittedBy])
            (by simp [heldOf, hpc])
      | copyEnd d =>
        exact Change.same (by rw [step_run g i w _ hw]; simp [handleClient, forwardTraffic, hpc])
    | relay c2b =>
      cases inp with
      | store ok =>
        exact Change.same (by
          rw [step_run g i w _ hw]; cases c2b <;> simp [handleClient, forwardTraffic, hpc])
      | dial e =>
        exact Change.same (by
          rw [step_run g i w _ hw]; cases c2b <;> simp [handleClient, forwardTraffic, hpc])
      | copyEnd d =>
        cases d with
        | backendToClient =>
          rw [step_copy_b2c g i w c2b hw hpc]
          exact Change.quiet l1 l2 w { w with pc := Pc.done } h1 (h3 _) rfl rfl
            (by rw [enqueuedSeq_trace]; simp [enqueuedBy])
            (by rw [admittedSeq_trace]; simp [admittedBy])
            (by simp [heldOf, hpc])
        | clientToBackend =>
          cases c2b with
          | true =>
            exact Change.same (by
              rw [step_run g i w _ hw]; simp [handleClient, forwardTraffic, hpc])
          | false =>
            rw [step_copy_c2b g i w hw hpc]
            exact Change.quiet l1 l2 w { w with pc := Pc.relay true } h1 (h3 _) rfl rfl
              (by rw [enqueuedSeq_trace]; simp [enqueuedBy])
              (by rw [admittedSeq_trace]; simp [admittedBy])
              (by simp [heldOf, hpc])
    | done => exact Change.same (step_done g i w inp hw hpc)

theorem step_change (g : Gateway) (a : Action) (hok : storeOk a = true) :
    Change g a (step g a) := by
  cases a with
  | run i inp => exact step_run_change g i inp hok
  | clientClose i => exact step_clientClose_change g i

/-! ## Conservation of tickets -/

theorem held_split (l1 l2 : List Worker) (w : Worker) :
    held (l1 ++ w :: l2) = held l1 ++ ((heldOf w.pc).toList ++ held l2) := by
  simp only [held, List.filterMap_append, List.filterMap_cons]
  cases heldOf w.pc <;> simp

theorem conserved_step (g : Gateway) (a : Action) (hok : storeOk a = true)
    (inv : Conserved g) : Conserved (step g a) := by
  intro t
  have bal := inv t
  cases step_change g a hok with
  | same h => rw [h]; exact bal
  | quiet l1 l2 w w1 hws hws1 hid hq he ha hh =>
    rw [hws, held_split] at bal
    rw [hws1, held_split, hq, he, ha, hh]
    exact bal
  | push l1 l2 w w1 hws hws1 hid hact hpc hpc1 hq he ha =>
    rw [hws, held_split] at bal
    rw [hws1, held_split, hq, he, ha]
    simp only [hpc, hpc1, heldOf, List.count_append, List.count_cons, List.count_nil,
      Option.toList] at bal ⊢
    omega
  | popOwn l1 l2 w w1 hws hws1 hid hact hpc hpc1 hq he ha =>
    rw [hws, held_split, hq] at bal
    rw [hws1, held_split, he, ha]
    simp only [hpc, hpc1, heldOf, List.count_append, List.count_cons, List.count_nil,
      Option.toList] at bal ⊢
    omega
  | popForeign h l1 l2 w w1 hws hws1 hid hact hpc hpc1 hq he ha =>
    rw [hws, held_split, hq] at bal
    rw [hws1, held_split, he, ha]
    simp only [hpc, hpc1, heldOf, List.count_append, List.count_cons, List.count_nil,
      Option.toList] at bal ⊢
    omega
  | pushBack h l1 l2 w w1 hws hws1 hid hact hpc hpc1 hq he ha =>
    rw [hws, held_split] at bal
    rw [hws1, held_split, hq, he, ha]
    simp only [hpc, hpc1, heldOf, List.count_append, List.count_cons, List.count_nil,
      Option.toList] at bal ⊢
    omega

theorem conserved_exec (sched : List Action) :
    ∀ g : Gateway, (∀ a ∈ sched, storeOk a = true) → Conserved g → Conserved (exec g sched) := by
  induction sched with
  | nil => intro g _ inv; exact inv
  | cons a rest ih =>
    intro g hok inv
    have h1 := conserved_step g a (hok a (List.mem_cons_self _ _)) inv
    exact ih (step g a) (fun b hb => hok b (List.mem_cons_of_mem _ hb)) h1

theorem held_init (conns : List (String × Int)) :
    held (conns.map (fun c => Worker.accepted c.1 c.2)) = [] := by
  induction conns with
  | nil => rfl
  | cons c cs ih => simp [held, heldOf, Worker.accepted] at ih ⊢

theorem conserved_init (conns : List (String × Int)) : Conserved (Gateway.init conns) := by
  intro t
  simp [Gateway.init, held_init, admittedSeq, enqueuedSeq]

/-- Claim C4: in every interleaving of the store commands of any number of
handlers in which no store command fails and the enqueued tickets are
pairwise distinct, no ticket is admitted twice; every enqueued ticket that is
not admitted is either in the queue exactly once and held by nobody, or
absent from the queue and held by exactly one handler between its `RPop` and
its `RPush`; and an admitted ticket is neither in the queue nor held by a
handler. -/
theorem no_double_admission (conns : List (String × Int)) (sched : List Action)
    (hok : ∀ a ∈ sched, storeOk a = true)
    (hd : (enqueuedSeq (exec (Gateway.init conns) sched)).Nodup) :
    (admittedSeq (exec (Gateway.init conns) sched)).Nodup ∧
    (∀ t ∈ enqueuedSeq (exec (Gateway.init conns) sched),
      t ∉ admittedSeq (exec (Gateway.init conns) sched) →
        ((exec (Gateway.init conns) sched).queue.count t = 1 ∧
          (held (exec (Gateway.init conns) sched).workers).count t = 0) ∨
        ((exec (Gateway.init conns) sched).queue.count t = 0 ∧
          (held (exec (Gateway.init conns) sched).workers).count t = 1)) ∧
    (∀ t ∈ admittedSeq (exec (Gateway.init conns) sched),
      t ∉ (exec (Gateway.init conns) sched).queue ∧
      t ∉ held (exec (Gateway.init conns) sched).workers) := by
  have bal := conserved_exec sched _ hok (conserved_init conns)
  generalize exec (Gateway.init conns) sched = g at bal hd
  have hone : ∀ t, (enqueuedSeq g).count t ≤ 1 := List.nodup_iff_count_le_one.mp hd
  refine ⟨?_, ?_, ?_⟩
  · rw [List.nodup_iff_count_le_one]
    intro t
    have := bal t
    have := hone t
    omega
  · intro t hte hta
    have h1 := bal t
    have h2 := hone t
    have h3 : 0 < (enqueuedSeq g).count t := List.count_pos_iff.mpr hte
    have h4 : (admittedSeq g).count t = 0 := List.count_eq_zero_of_not_mem hta
    omega
  · intro t hta
    have h1 := bal t
    have h2 := hone t
    have h3 : 0 < (admittedSeq g).count t := List.count_pos_iff.mpr hta
    constructor
    · intro hq
      have : 0 < g.queue.count t := List.count_pos_iff.mpr hq
      omega
    · intro hh
      have : 0 < (held g.workers).count t := List.count_pos_iff.mpr hh
      omega

/-- An instance of the preceding theorem: three handlers, the iteration of
handler 2 interleaved with the admission of handler 1. -/
theorem no_double_admission_witness :
    (admittedSeq (exec (Gateway.init demoConns)
      [st 0, st 0, st 1, st 1, st 2, st 2, st 2, st 1, st 2, st 0])).Nodup :=
  (no_double_admission demoConns
    [st 0, st 0, st 1, st 1, st 2, st 2, st 2, st 1, st 2, st 0] (by decide) (by decide)).1

/-! ## Admission in arrival order -/

theorem take_length_append {α : Type} (l1 l2 : List α) : (l1 ++ l2).take l1.length = l1 := by
  induction l1 with
  | nil => simp
  | cons x xs ih => simp [ih]

theorem drop_length_append {α : Type} (l1 l2 : List α) (x : α) :
    (l1 ++ x :: l2).drop (l1.length + 1) = l2 := by
  induction l1 with
  | nil => simp
  | cons y ys _ => simp

theorem others_idle (l1 l2 : List Worker) (w : Worker)
    (h : othersIdle (l1 ++ w :: l2) l1.length = true) : held l1 = [] ∧ held l2 = [] := by
  simp only [othersIdle, take_length_append, drop_length_append, List.isEmpty_eq_true,
    List.append_eq_nil] at h
  exact h

theorem atomic_store (g : Gateway) (a : Action) (l1 l2 : List Worker) (w : Worker)
    (hat : atomicAt g a = true) (hws : g.workers = l1 ++ w :: l2)
    (hact : a = Action.run l1.length (Input.store true)) : held l1 = [] ∧ held l2 = [] := by
  subst hact
  simp only [atomicAt, hws] at hat
  exact others_idle l1 l2 w hat

theorem inOrder_step (g : Gateway) (a : Action) (hok : storeOk a = true)
    (hat : atomicAt g a = true) (inv : InOrder g) : InOrder (step g a) := by
  unfold InOrder at inv ⊢
  cases step_change g a hok with
  | same h => rw [h]; exact inv
  | quiet l1 l2 w w1 hws hws1 hid hq he ha hh =>
    rw [hws, held_split] at inv
    rw [hws1, held_split, hq, he, ha, hh]
    exact inv
  | push l1 l2 w w1 hws hws1 hid hact hpc hpc1 hq he ha =>
    rw [hws, held_split] at inv
    rw [hws1, held_split, hq, he, ha, inv]
    simp [hpc, hpc1, heldOf]
  | popOwn l1 l2 w w1 hws hws1 hid hact hpc hpc1 hq he ha =>
    obtain ⟨i1, i2⟩ := atomic_store g a l1 l2 w hat hws hact
    rw [hws, held_split, hq] at inv
    rw [hws1, held_split, he, ha, inv]
    simp [hpc, hpc1, heldOf, i1, i2]
  | popForeign h l1 l2 w w1 hws hws1 hid hact hpc hpc1 hq he ha =>
    obtain ⟨i1, i2⟩ := atomic_store g a l1 l2 w hat hws hact
    rw [hws, held_split, hq] at inv
    rw [hws1, held_split, he, ha, inv]
    simp [hpc, hpc1, heldOf, i1, i2]
  | pushBack h l1 l2 w w1 hws hws1 hid hact hpc hpc1 hq he ha =>
    obtain ⟨i1, i2⟩ := atomic_store g a l1 l2 w hat hws hact
    rw [hws, held_split] at inv
    rw [hws1, held_split, hq, he, ha, inv]
    simp [hpc, hpc1, heldOf, i1, i2]

theorem inOrder_exec (sched : List Action) :
    ∀ g : Gateway, (∀ a ∈ sched, storeOk a = true) → atomicSched g sched = true →
      InOrder g → InOrder (exec g sched) := by
  induction sched with
  | nil => intro g _ _ inv; exact inv
  | cons a rest ih =>
    intro g hok hat inv
    simp only [atomicSched, Bool.and_eq_true] at hat
    have h1 := inOrder_step g a (hok a (List.mem_cons_self _ _)) hat.1 inv
    exact ih (step g a) (fun b hb => hok b (List.mem_cons_of_mem _ hb)) hat.2 h1

theorem inOrder_init (conns : List (String × Int)) : InOrder (Gateway.init conns) := by
  simp [InOrder, Gateway.init, held_init, admittedSeq, enqueuedSeq]

theorem admission_is_oldest (g : Gateway) (a : Action) (hok : storeOk a = true)
    (hat : atomicAt g a = true) (inv : InOrder g)
    (hne : admittedSeq (step g a) ≠ admittedSeq g) :
    ∃ q t, g.queue = q ++ [t] ∧ (step g a).queue = q ∧
      admittedSeq (step g a) = admittedSeq g ++ [t] ∧
      enqueuedSeq g = admittedSeq g ++ t :: q.reverse := by
  unfold InOrder at inv
  cases step_change g a hok with
  | same h => exact absurd (by rw [h]) hne
  | quiet l1 l2 w w1 hws hws1 hid hq he ha hh => exact absurd ha hne
  | push l1 l2 w w1 hws hws1 hid hact hpc hpc1 hq he ha => exact absurd ha hne
  | popForeign h l1 l2 w w1 hws hws1 hid hact hpc hpc1 hq he ha => exact absurd ha hne
  | pushBack h l1 l2 w w1 hws hws1 hid hact hpc hpc1 hq he ha => exact absurd ha hne
  | popOwn l1 l2 w w1 hws hws1 hid hact hpc hpc1 hq he ha =>
    obtain ⟨i1, i2⟩ := atomic_store g a l1 l2 w hat hws hact
    refine ⟨(step g a).queue, w.id, hq, rfl, ha, ?_⟩
    rw [hws, held_split, hq] at inv
    rw [inv]
    simp [hpc, heldOf, i1, i2]

/-- Claim C3: in every execution in which no store command fails and every
poll iteration (the `RPop` and, for a foreign ticket, the `RPush` that puts it
back) runs without a store command of another handler in between, the
enqueued tickets are, in the order of their `LPush`, the admitted tickets in
the order of their admission followed by the tickets still waiting, read from
the dequeue end; so the admitted tickets are an initial segment of the
enqueued ones, and whenever a next step admits a ticket, it is the one at the
dequeue end, which was enqueued before every other ticket still in the
queue. -/
theorem fifo_admission (conns : List (String × Int)) (sched : List Action)
    (hok : ∀ a ∈ sched, storeOk a = true)
    (hat : atomicSched (Gateway.init conns) sched = true) :
    enqueuedSeq (exec (Gateway.init conns) sched) =
      admittedSeq (exec (Gateway.init conns) sched) ++
        ((exec (Gateway.init conns) sched).queue ++
          held (exec (Gateway.init conns) sched).workers).reverse ∧
    admittedSeq (exec (Gateway.init conns) sched) <+:
      enqueuedSeq (exec (Gateway.init conns) sched) ∧
    (∀ a, storeOk a = true → atomicAt (exec (Gateway.init conns) sched) a = true →
      admittedSeq (step (exec (Gateway.init conns) sched) a) ≠
        admittedSeq (exec (Gateway.init conns) sched) →
      ∃ q t, (exec (Gateway.init conns) sched).queue = q ++ [t] ∧
        (step (exec (Gateway.init conns) sched) a).queue = q ∧
        admittedSeq (step (exec (Gateway.init conns) sched) a) =
          admittedSeq (exec (Gateway.init conns) sched) ++ [t] ∧
        enqueuedSeq (exec (Gateway.init conns) sched) =
          admittedSeq (exec (Gateway.init conns) sched) ++ t :: q.reverse) := by
  have inv := inOrder_exec sched _ hok hat (inOrder_init conns)
  generalize exec (Gateway.init conns) sched = g at inv
  refine ⟨inv, ⟨_, inv.symm⟩, fun a hoka hata hne => ?_⟩
  exact admission_is_oldest g a hoka hata inv hne

/-- An instance of the preceding theorem: three handlers enqueue, handler 2 polls
and puts the ticket of handler 0 back, then the handlers are admitted. -/
theorem fifo_admission_witness :
    admittedSeq (exec (Gateway.init demoConns)
      [st 0, st 0, st 1, st 1, st 2, st 2, st 2, st 2, st 1, st 1, st 0, st 1, st 2]) <+:
    enqueuedSeq (exec (Gateway.init demoConns)
      [st 0, st 0, st 1, st 1, st 2, st 2, st 2, st 2, st 1, st 1, st 0, st 1, st 2]) :=
  (fifo_admission demoConns
    [st 0, st 0, st 1, st 1, st 2, st 2, st 2, st 2, st 1, st 1, st 0, st 1, st 2]
    (by decide) (by decide)).2.1

end LoginGateway
